import Mathlib

/-!
Shallow embedding of the vim-royale per-match game server
(`src/game/src/game.rs`) and verification of the frozen claims about it.

The embedding translates the source directly:

* the fixed-capacity slot table `players: [Option<Player>; P]` becomes a
  `List (Option Player)` whose length is maintained at `P`; an out-of-bounds
  index (a Rust panic) is modelled by returning `none`;
* the shared `Arc<AtomicU8>` population counter becomes a `Nat` together with
  explicit `% 256` arithmetic at each `fetch_add` / `fetch_sub` (the Rust
  atomics wrap on overflow and underflow);
* the lobby handoff channel and the fan-in queue become explicit lists /
  per-tick lists of events; channel closure is the exhausted list;
* real time in the tick scheduler becomes `Nat` microseconds, with the
  per-iteration processing durations supplied as an arbitrary function.
-/

namespace VimRoyale

/-- The default slot-table capacity `PLAYER_COUNT` (game.rs line 20). -/
def PLAYER_COUNT : Nat := 100

/-- The tick duration `FPS` in microseconds (game.rs line 21). -/
def FPS : Nat := 16666

/-- The per-player entity id budget `ENTITY_RANGE` (game.rs line 22). -/
def ENTITY_RANGE : Nat := 500

/-- The modulus of the 8-bit atomic population counter (`AtomicU8`). -/
def U8MOD : Nat := 256

/-- Modelled from the spec: the `encoding` crate (outside `src/`) defines the
role constants `WHO_AM_I_CLIENT` and `WHO_AM_I_UNKNOWN`; the spec only
requires that the client role is distinguished from the unknown role, so we
give them distinct concrete values. -/
def WHO_AM_I_CLIENT : Nat := 1

/-- Modelled from the spec: see `WHO_AM_I_CLIENT`. -/
def WHO_AM_I_UNKNOWN : Nat := 0

/-- A seated player (game.rs `Player`, fields relevant to the match core).
The network sink handle is an external collaborator and is omitted. -/
structure Player where
  position : Nat × Nat
  id : Nat
  clock_diff : Int
  deriving Repr, DecidableEq

/-- Modelled from the spec: the decode result of a binary frame, as produced
by the `encoding` crate collaborator.  Only the `Whoami` tag is inspected by
the code under verification. -/
inductive DecodedMsg where
  | Whoami (v : Nat)
  | OtherDecoded
  deriving Repr, DecidableEq

/-- The result of `ServerMessage::deserialize` on a binary payload. -/
inductive DecodeResult where
  | ok (m : DecodedMsg)
  | err
  deriving Repr, DecidableEq

/-- A websocket message, abstracted by what the codec collaborator makes of
it: a binary frame carries its decode result, everything else is non-binary. -/
inductive WsMessage where
  | Binary (decoded : DecodeResult)
  | NonBinary
  deriving Repr, DecidableEq

/-- The value of `stream.next().await` at the head of a connection:
`frame m` is `Some(Ok(m))`, `readError` is `Some(Err(_))`, `closed` is
`None` (stream ended before any frame). -/
inductive FrameRead where
  | frame (m : WsMessage)
  | readError
  | closed
  deriving Repr, DecidableEq

/-- The `Result<u8>` returned by `whoami` (game.rs lines 208-223). -/
inductive WhoamiResult where
  | ok (v : Nat)
  | err (msg : String)
  deriving Repr, DecidableEq

/-- The function `whoami` (game.rs lines 208-223): a binary first frame that decodes to a
`Whoami` message yields its role value; a binary frame that decodes to
anything else, or fails to decode, is an error; any other situation (a
non-binary frame, a transport error, or a closed stream) yields
`WHO_AM_I_UNKNOWN`. -/
def whoami : FrameRead → WhoamiResult
  | .frame (.Binary (.ok (.Whoami v))) => .ok v
  | .frame (.Binary (.ok .OtherDecoded)) => .err "expected whoami message"
  | .frame (.Binary .err) => .err "deserialize"
  | .frame .NonBinary => .ok WHO_AM_I_UNKNOWN
  | .readError => .ok WHO_AM_I_UNKNOWN
  | .closed => .ok WHO_AM_I_UNKNOWN

/-- The match state (game.rs `Game<P>`): seed, slot table, population
counter.  The map, serialization tag, game id and the channel handles do not
enter any claim; the counter is the value of the shared `AtomicU8`. -/
structure GameState (P : Nat) where
  seed : Nat
  players : List (Option Player)
  player_count : Nat
  deriving Repr, DecidableEq

/-- The state built by `Game::new` (game.rs lines 45-64) with the shared counter at 0: every
slot empty. -/
def initialGame (P : Nat) (seed : Nat) : GameState P :=
  { seed := seed, players := List.replicate P none, player_count := 0 }

/-- A connection event on the fan-in queue (`ConnectionMessage`): an inbound
decoded message, a close notification carrying the player id, or one of the
other variants (matched by the catch-all arm in `process_message`). -/
inductive ConnectionMessage where
  | Msg (m : DecodedMsg)
  | Close (id : Nat)
  | Other
  deriving Repr, DecidableEq

/-- The handler `Game::process_message` (game.rs lines 66-78).  `Msg` and the catch-all
arm only log.  `Close id` executes `self.players[id as usize] = None` —
which panics (modelled as `none`) when `id ≥ P` — and then
`player_count.fetch_sub(1)`, which wraps modulo 256 unconditionally,
whether or not the slot held a player. -/
def processMessage (P : Nat) (s : GameState P) : ConnectionMessage → Option (GameState P)
  | .Msg _ => some s
  | .Close id =>
      if id < P then
        some { s with players := s.players.set id none,
                      player_count := (s.player_count + (U8MOD - 1)) % U8MOD }
      else none
  | .Other => some s

/-- The admission `Game::add_player` (game.rs lines 135-157): the allocated player id is
`player_count.fetch_add(1)` — the OLD counter value, the counter wrapping
modulo 256 — the clock sync result (best effort, zero on failure) becomes
`clock_diff`, the new `Player` gets the fixed spawn position `(256, 256)`,
and it is written to slot `player_id`, which panics (modelled as `none`)
when `player_id ≥ P`.  Returns the new state and the allocated id. -/
def addPlayer (P : Nat) (s : GameState P) (clock_diff : Int) : Option (GameState P × Nat) :=
  let player_id := s.player_count
  if player_id < P then
    some ({ s with
              player_count := (s.player_count + 1) % U8MOD,
              players := s.players.set player_id
                (some { position := (256, 256), id := player_id, clock_diff := clock_diff }) },
          player_id)
  else none

/-- The readiness check `Game::is_ready` (game.rs lines 129-133): compares the population
counter with the literal `1` — there is no configured target value. -/
def isReady (P : Nat) (s : GameState P) : Bool :=
  s.player_count == 1

/-- The wire message built by `create_player_start_msg`
(game.rs lines 35-42): `server::PlayerStart`. -/
structure PlayerStart where
  entity_id : Nat
  position : Nat × Nat
  range : Nat
  seed : Nat
  deriving Repr, DecidableEq

/-- The builder `create_player_start_msg` (game.rs lines 35-42): the start of the
player's entity id range is `id * ENTITY_RANGE`, the range/visibility field
is `ENTITY_RANGE`, position and seed are copied. -/
def create_player_start_msg (p : Player) (seed : Nat) : PlayerStart :=
  { entity_id := p.id * ENTITY_RANGE
    position := p.position
    range := ENTITY_RANGE
    seed := seed }

/-- The broadcaster `Game::start_game` (game.rs lines 160-176): one start message per
occupied slot, sent on that player's own sink — represented as the list of
(recipient player id, message) pairs in slot order. -/
def startGameMsgs (P : Nat) (s : GameState P) : List (Nat × PlayerStart) :=
  s.players.filterMap (fun slot =>
    slot.map (fun p => (p.id, create_player_start_msg p s.seed)))

/-- An event on the lobby handoff channel (`GameMessage` as consumed by
`game_run`): a new connection — represented by its first frame and the
clock-sync offset the Clock Synchronizer would return for it — or any
other variant. -/
inductive GameMessage where
  | Connection (firstFrame : FrameRead) (clockDiff : Int)
  | OtherMsg
  deriving Repr, DecidableEq

/-- The outcome of handling one lobby connection inside the admission loop
(game.rs lines 243-255). -/
inductive AdmissionDecision (P : Nat) where
  | admitted (s : GameState P)
  | rejectedSocketClosed
  | slotWritePanic
  deriving Repr, DecidableEq

/-- One connection through the admission state machine (game.rs lines
243-255): read the first frame through `whoami`; only `Ok(WHO_AM_I_CLIENT)`
admits (`add_player`); anything else closes the socket and leaves the match
state untouched.  A panic inside `add_player` is surfaced. -/
def admissionStep (P : Nat) (s : GameState P) (ff : FrameRead) (cd : Int) :
    AdmissionDecision P :=
  match whoami ff with
  | .ok v =>
      if v = WHO_AM_I_CLIENT then
        match addPlayer P s cd with
        | some (s', _) => .admitted s'
        | none => .slotWritePanic
      else .rejectedSocketClosed
  | .err _ => .rejectedSocketClosed

/-- The outcome of the whole admission loop of `game_run`
(game.rs lines 235-271). -/
inductive LoopResult (P : Nat) where
  | ready (s : GameState P)
  | fatalPanic (logged : String)
  | slotWritePanic
  deriving Repr, DecidableEq

/-- The admission loop of `game_run` (game.rs lines 235-271), consuming the
lobby channel.  List exhaustion is `recv()` returning `None` (channel
closed): the code logs and then executes `unreachable!`, i.e. panics —
`fatalPanic` records the logged message.  A non-connection event does the
same.  A rejected connection leaves the state unchanged and continues; a
successful admission is followed by the `is_ready` check, and on readiness
the loop breaks with the current state (control then passes to
`start_game`). -/
def admissionLoop (P : Nat) (s : GameState P) : List GameMessage → LoopResult P
  | [] => .fatalPanic "Game comms channel closed"
  | .Connection ff cd :: rest =>
      match admissionStep P s ff cd with
      | .admitted s' => if isReady P s' then .ready s' else admissionLoop P s' rest
      | .rejectedSocketClosed => admissionLoop P s rest
      | .slotWritePanic => .slotWritePanic
  | .OtherMsg :: _ => .fatalPanic "Game comms channel gave a non connection message"

/-- The tail of `game_run` after the admission loop breaks: `start_game` runs exactly
once on the resulting state.  Returns the broadcast batch when the loop
reached readiness, `none` when it panicked. -/
def broadcastAfterAdmission (P : Nat) (s : GameState P) (events : List GameMessage) :
    Option (List (Nat × PlayerStart)) :=
  match admissionLoop P s events with
  | .ready s' => some (startGameMsgs P s')
  | _ => none

/-- The population counter of the state the admission loop broke out with. -/
def loopResultCount (P : Nat) : LoopResult P → Option Nat
  | .ready s => some s.player_count
  | _ => none

/-- Processing the drain of one tick of the match loop (`Game::run`, steps
1-2, game.rs lines 103-108): `process_message` on each drained event in
order; `none` propagates a panic. -/
def gameIteration (P : Nat) (s : GameState P) : List ConnectionMessage → Option (GameState P)
  | [] => some s
  | m :: rest =>
      match processMessage P s m with
      | some s' => gameIteration P s' rest
      | none => none

/-- The outcome of running the match loop for a bounded number of ticks. -/
inductive RunResult (P : Nat) where
  | finished (s : GameState P) (exitTick : Nat)
  | running (s : GameState P)
  | panicked
  deriving Repr, DecidableEq

/-- The match loop of `Game::run` (game.rs lines 89-127), with the events
drained at tick `t` given by `msgs t` and `fuel` bounding the number of
iterations observed (the loop itself has no bound).  Each iteration drains
and processes its events, sleeps to its deadline (time is modelled
separately, by `tickStartTime`), then checks the leave condition: the loop
breaks exactly when the population counter reads 0 at the end of a tick. -/
def gameRunLoop (P : Nat) (msgs : Nat → List ConnectionMessage) :
    Nat → GameState P → Nat → RunResult P
  | 0, s, _ => .running s
  | fuel + 1, s, tick =>
      match gameIteration P s (msgs tick) with
      | none => .panicked
      | some s' =>
          if s'.player_count = 0 then .finished s' tick
          else gameRunLoop P msgs fuel s' (tick + 1)

/-- The state of the match loop after `n` further iterations starting at
tick index `tick` (`none` once an iteration panics): the reference trace
used to specify `gameRunLoop`. -/
def loopTrace (P : Nat) (msgs : Nat → List ConnectionMessage) :
    GameState P → Nat → Nat → Option (GameState P)
  | s, _, 0 => some s
  | s, tick, n + 1 =>
      match gameIteration P s (msgs tick) with
      | some s' => loopTrace P msgs s' (tick + 1) n
      | none => none

/-- The elapsed time (microseconds) at which the processing of the
iteration with 0-based index `k` begins (`Game::run`, game.rs lines
89-127).  The Rust `tick` counter reads `k + 1` during that iteration.  The
origin is the single `Instant::now()` captured at loop entry; iteration 0
processes immediately.  After iteration `k` processes for `p k`
microseconds, the code computes `next_frame = tick * FPS = (k+1) * FPS`
from that fixed origin and sleeps exactly up to it when ahead, otherwise
continues immediately — hence the `max`. -/
def tickStartTime (p : Nat → Nat) : Nat → Nat
  | 0 => 0
  | k + 1 => max (tickStartTime p k + p k) ((k + 1) * FPS)

/-- A registry operation at the public interface: an admission
(`add_player`, with the clock offset its sync produced) or the processing
of a close event (`process_message` with `Close id`). -/
inductive GameOp where
  | seat (clockDiff : Int)
  | close (id : Nat)
  deriving Repr, DecidableEq

/-- Run a sequence of registry operations, collecting the ids allocated by
the admissions; `none` as soon as one operation panics. -/
def runOpsIds (P : Nat) (s : GameState P) : List GameOp → Option (GameState P × List Nat)
  | [] => some (s, [])
  | .seat cd :: rest =>
      match addPlayer P s cd with
      | some (s', id) =>
          (runOpsIds P s' rest).map (fun r => (r.1, id :: r.2))
      | none => none
  | .close id :: rest =>
      match processMessage P s (.Close id) with
      | some s' => runOpsIds P s' rest
      | none => none

/-- The number of occupied slots. -/
def occupiedCount (P : Nat) (s : GameState P) : Nat :=
  s.players.countP (fun o => o.isSome)

/-- The registry invariant relating counter and slot table. -/
def GameInv (P : Nat) (s : GameState P) : Prop :=
  s.players.length = P ∧ occupiedCount P s ≤ s.player_count ∧ s.player_count ≤ P

/-- A run of registry operations in which every processed close event
targets a currently occupied slot (each step records the full source
transition, so any intermediate state is the endpoint of a prefix run). -/
inductive GuardedRun (P : Nat) : GameState P → List GameOp → GameState P → Prop where
  | nil (s : GameState P) : GuardedRun P s [] s
  | seat (s : GameState P) (cd : Int) (s' : GameState P) (id : Nat)
      (rest : List GameOp) (t : GameState P)
      (hstep : addPlayer P s cd = some (s', id))
      (hrest : GuardedRun P s' rest t) :
      GuardedRun P s (.seat cd :: rest) t
  | close (s : GameState P) (id : Nat) (s' : GameState P)
      (rest : List GameOp) (t : GameState P)
      (hocc : (s.players.getD id none).isSome = true)
      (hstep : processMessage P s (.Close id) = some s')
      (hrest : GuardedRun P s' rest t) :
      GuardedRun P s (.close id :: rest) t

/-- A lobby connection whose first frame is a valid binary
client-identification frame. -/
def validConn (cd : Int) : GameMessage :=
  .Connection (.frame (.Binary (.ok (.Whoami WHO_AM_I_CLIENT)))) cd

/-- The match state after one admission (from a fresh match) followed by one
processed close event for id 0: slot 0 is empty again and the counter reads
0.  Used to exercise a repeated close event for the same id. -/
def afterAdmitClose : Option (GameState 100) :=
  (addPlayer 100 (initialGame 100 0) 0).bind
    (fun r => processMessage 100 r.1 (ConnectionMessage.Close 0))

/-- Explicit state after admitting one player into a fresh 100-slot match. -/
def oneAdmitted : GameState 100 :=
  { seed := 0
    players := (List.replicate 100 none).set 0
      (some { position := (256, 256), id := 0, clock_diff := 0 })
    player_count := 1 }

/-- Explicit state after admitting one player and processing its close. -/
def oneAdmittedClosed : GameState 100 :=
  { seed := 0
    players := ((List.replicate 100 none).set 0
      (some { position := (256, 256), id := 0, clock_diff := 0 })).set 0 none
    player_count := 0 }

/-- Explicit state after two admissions into a fresh 100-slot match, with
clock offsets 0 and 5. -/
def twoAdmitted : GameState 100 :=
  { seed := 0
    players := ((List.replicate 100 none).set 0
      (some { position := (256, 256), id := 0, clock_diff := 0 })).set 1
      (some { position := (256, 256), id := 1, clock_diff := 5 })
    player_count := 2 }

/-- A small state with two seated players, used to exercise the start
broadcaster. -/
def broadcastDemoState : GameState 3 :=
  { seed := 9
    players := [some { position := (256, 256), id := 0, clock_diff := 0 },
                some { position := (300, 300), id := 1, clock_diff := 2 },
                none]
    player_count := 2 }

/-- A per-tick event schedule delivering a single close event at tick 2. -/
def closeAtTickTwo : Nat → List ConnectionMessage :=
  fun t => if t = 2 then [ConnectionMessage.Close 0] else []

/-- A two-slot state with one seated player, used to exercise the match
loop exit condition. -/
def oneSeatedTwoSlots : GameState 2 :=
  { seed := 0
    players := [some { position := (256, 256), id := 0, clock_diff := 0 }, none]
    player_count := 1 }

/-- The endpoint of running `closeAtTickTwo` against `oneSeatedTwoSlots`. -/
def emptiedTwoSlots : GameState 2 :=
  { seed := 0, players := [none, none], player_count := 0 }


/-! ## Helper lemmas -/

/-- Unfolding lemma: one iteration of the reference trace. -/
theorem loopTrace_succ (P : Nat) (msgs : Nat → List ConnectionMessage)
    (s : GameState P) (tick n : Nat) :
    loopTrace P msgs s tick (n + 1) =
      match gameIteration P s (msgs tick) with
      | some s1 => loopTrace P msgs s1 (tick + 1) n
      | none => none := rfl

/-- Unfolding lemma: one iteration of the fueled match loop. -/
theorem gameRunLoop_succ (P : Nat) (msgs : Nat → List ConnectionMessage)
    (fuel : Nat) (s : GameState P) (tick : Nat) :
    gameRunLoop P msgs (fuel + 1) s tick =
      match gameIteration P s (msgs tick) with
      | none => RunResult.panicked
      | some s1 =>
          if s1.player_count = 0 then RunResult.finished s1 tick
          else gameRunLoop P msgs fuel s1 (tick + 1) := rfl

/-- The only first frame on which `whoami` reports the client role is a
binary frame decoding to `Whoami WHO_AM_I_CLIENT`. -/
theorem whoami_client_iff (ff : FrameRead) :
    whoami ff = WhoamiResult.ok WHO_AM_I_CLIENT ↔
      ff = FrameRead.frame (WsMessage.Binary (DecodeResult.ok
        (DecodedMsg.Whoami WHO_AM_I_CLIENT))) := by
  cases ff with
  | frame m =>
    cases m with
    | Binary d =>
      cases d with
      | ok dm =>
        cases dm with
        | Whoami v =>
          constructor
          · intro h
            have hv : v = WHO_AM_I_CLIENT := by
              simpa [whoami] using h
            rw [hv]
          · intro h
            have hv : v = WHO_AM_I_CLIENT := by
              simpa using h
            simp [whoami, hv]
        | OtherDecoded => simp [whoami]
      | err => simp [whoami]
    | NonBinary => simp [whoami, WHO_AM_I_UNKNOWN, WHO_AM_I_CLIENT]
  | readError => simp [whoami, WHO_AM_I_UNKNOWN, WHO_AM_I_CLIENT]
  | closed => simp [whoami, WHO_AM_I_UNKNOWN, WHO_AM_I_CLIENT]

/-- Claim C1 (code bug): the readiness check is the literal 1, not a
configured per-match target.  Evaluated at the failing input of spec
Scenario C — a match that should wait for 3 players, with three valid
client connections pending — the admission loop exits after the FIRST
successful admission, at population 1, and the Start Broadcaster then runs
on a single seated player: readiness does not wait for any configured
target.  The third conjunct records that `is_ready` compares the counter
with the literal 1 in every state. -/
theorem game_starts_after_first_admission :
    loopResultCount 100 (admissionLoop 100 (initialGame 100 0)
        [validConn 0, validConn 0, validConn 0]) = some 1 ∧
    broadcastAfterAdmission 100 (initialGame 100 0)
        [validConn 0, validConn 0, validConn 0] =
      some [(0, { entity_id := 0, position := (256, 256), range := 500, seed := 0 })] ∧
    (∀ s : GameState 100, isReady 100 s = (s.player_count == 1)) :=
  ⟨by decide, by decide, fun _ => rfl⟩

/-- Claim C9 (code bug): when the lobby handoff channel is closed, and when
it delivers a non-connection event, `game_run` logs the error and then
executes the `unreachable!` arm — an unconditional process panic
(`fatalPanic` in the model), not a reported error result for the match. -/
theorem lobby_channel_failure_panics :
    admissionLoop 100 (initialGame 100 0) [] =
      LoopResult.fatalPanic "Game comms channel closed" ∧
    admissionLoop 100 (initialGame 100 0) [GameMessage.OtherMsg] =
      LoopResult.fatalPanic "Game comms channel gave a non connection message" :=
  ⟨rfl, rfl⟩

/-- Claim C10 (confirmed): slot-table indexing is unguarded.  A close event
whose id is at least `P` panics (modelled `none`) in `process_message`; an
admission allocating an id at least `P` panics in `add_player`; and such
ids are reachable because the 8-bit counter wraps — from a fresh match,
processing one close event and then one admission allocates id 255 and
panics, while the default capacity `PLAYER_COUNT` is only 100 of the 256
counter values. -/
theorem unguarded_slot_indexing (P : Nat) :
    (∀ (s : GameState P) (id : Nat), P ≤ id →
        processMessage P s (ConnectionMessage.Close id) = none) ∧
    (∀ (s : GameState P) (cd : Int), P ≤ s.player_count → addPlayer P s cd = none) ∧
    runOpsIds 100 (initialGame 100 0) [GameOp.close 0, GameOp.seat 0] = none ∧
    PLAYER_COUNT = 100 ∧ PLAYER_COUNT < U8MOD := by
  refine ⟨?_, ?_, by decide, rfl, by decide⟩
  · intro s id h
    simp [processMessage, Nat.not_lt.mpr h]
  · intro s cd h
    simp [addPlayer, Nat.not_lt.mpr h]

/-- Witness for `unguarded_slot_indexing`: concrete panics at capacity 100. -/
theorem unguarded_slot_indexing_witness :
    processMessage 100 (initialGame 100 0) (ConnectionMessage.Close 255) = none ∧
    addPlayer 100
      { seed := 0, players := List.replicate 100 none, player_count := 255 } 0 = none :=
  ⟨(unguarded_slot_indexing 100).1 (initialGame 100 0) 255 (by decide),
   (unguarded_slot_indexing 100).2.1
     { seed := 0, players := List.replicate 100 none, player_count := 255 } 0 (by decide)⟩


/-- Claim C5, counterexample: under the code's own tick numbering (the
`tick` counter reads `n` during the n-th iteration, and the deadline
computed for tick `n` is `n * FPS`, as the claim states), tick 1's
processing begins at elapsed time 0 — earlier than `1 * FPS` — because each
iteration processes BEFORE sleeping to its deadline.  So "tick n's
processing never begins earlier than n × tickDuration" fails at n = 1. -/
theorem first_tick_processes_before_its_deadline :
    tickStartTime (fun _ => 0) 0 = 0 ∧ 0 < 1 * FPS :=
  ⟨rfl, by decide⟩

/-- Claim C5, amended: deadlines are computed from the fixed loop-entry
origin as `tickIndex * tickDuration` with no per-tick accumulation; when
the elapsed time is short of the deadline the loop sleeps exactly until it,
otherwise it proceeds immediately; consequently the processing of the
iteration whose `tick` counter reads `k + 1` (the (k+1)-st iteration)
begins no earlier than `k * FPS` after loop start — one tick duration
later than the claim stated, since each iteration's own processing
precedes its deadline sleep. -/
theorem fixed_origin_tick_schedule (p : Nat → Nat) (k : Nat) :
    k * FPS ≤ tickStartTime p k ∧
    (tickStartTime p k + p k < (k + 1) * FPS →
      tickStartTime p (k + 1) = (k + 1) * FPS) ∧
    ((k + 1) * FPS ≤ tickStartTime p k + p k →
      tickStartTime p (k + 1) = tickStartTime p k + p k) := by
  refine ⟨?_, ?_, ?_⟩
  · cases k with
    | zero => simp [tickStartTime]
    | succ n => exact le_max_right _ _
  · intro h
    simp only [tickStartTime]
    exact Nat.max_eq_right (Nat.le_of_lt h)
  · intro h
    simp only [tickStartTime]
    exact Nat.max_eq_left h

/-- Witness for `fixed_origin_tick_schedule` at k = 0 with zero-length
processing: the bound holds and the first sleep ends exactly at `1 * FPS`. -/
theorem fixed_origin_tick_schedule_witness :
    0 * FPS ≤ tickStartTime (fun _ => 0) 0 ∧
    tickStartTime (fun _ => 0) (0 + 1) = (0 + 1) * FPS :=
  ⟨(fixed_origin_tick_schedule (fun _ => 0) 0).1,
   (fixed_origin_tick_schedule (fun _ => 0) 0).2.1 (by decide)⟩

/-- Claim C7 (confirmed): a connection whose first frame is anything other
than a binary client-identification frame — a binary frame decoding to a
different message or failing to decode, a non-binary frame, a transport
error, or no frame at all because the stream closed — is rejected: the
admission step closes the socket, creates no player, leaves the slot table
and the population counter untouched, and the admission loop continues
waiting on the remaining lobby events with the exact same match state. -/
theorem non_client_first_frame_rejected (P : Nat) (s : GameState P)
    (ff : FrameRead) (cd : Int) (rest : List GameMessage)
    (hff : ff ≠ FrameRead.frame (WsMessage.Binary (DecodeResult.ok
      (DecodedMsg.Whoami WHO_AM_I_CLIENT)))) :
    admissionStep P s ff cd = AdmissionDecision.rejectedSocketClosed ∧
    admissionLoop P s (GameMessage.Connection ff cd :: rest) =
      admissionLoop P s rest := by
  have hwho : whoami ff ≠ WhoamiResult.ok WHO_AM_I_CLIENT := by
    intro h
    exact hff ((whoami_client_iff ff).mp h)
  have hstep : admissionStep P s ff cd = AdmissionDecision.rejectedSocketClosed := by
    unfold admissionStep
    cases hw : whoami ff with
    | ok v =>
      have hv : v ≠ WHO_AM_I_CLIENT := by
        intro hv
        exact hwho (hv ▸ hw)
      simp [hv]
    | err m => rfl
  refine ⟨hstep, ?_⟩
  simp [admissionLoop, hstep]

/-- Witness for `non_client_first_frame_rejected`: a connection whose
stream closed before any frame is rejected and the loop continues on an
unchanged state. -/
theorem non_client_first_frame_rejected_witness :
    admissionStep 100 (initialGame 100 0) FrameRead.closed 0 =
      AdmissionDecision.rejectedSocketClosed ∧
    admissionLoop 100 (initialGame 100 0) [GameMessage.Connection FrameRead.closed 0] =
      admissionLoop 100 (initialGame 100 0) [] :=
  non_client_first_frame_rejected 100 (initialGame 100 0) FrameRead.closed 0 []
    (by decide)


/-- Claim C2, counterexample: close events are not idempotent.  After one
admission and one processed close for id 0 the slot is empty and the
counter reads 0; processing a SECOND close event for the same id 0 leaves
the slots alone but wraps the 8-bit counter down to 255 — the repeated
close is not a no-op, contradicting the claim. -/
theorem second_close_decrements_again :
    afterAdmitClose.map (fun s => (s.player_count, s.players.getD 0 none)) =
      some (0, none) ∧
    (afterAdmitClose.bind
        (fun s => processMessage 100 s (ConnectionMessage.Close 0))).map
      (fun s => s.player_count) = some 255 :=
  ⟨by decide, by decide⟩

/-- Claim C2, amended: processing a close event for id `X < P` always sets
slot `X` to empty, leaves every other slot unchanged, and decrements the
population counter by exactly one modulo 256 (so a genuine departure is
removed exactly once).  But the decrement is unconditional: when slot `X`
is already empty the slot table is unchanged while the counter still
moves, so a repeated close event for the same id is NOT a no-op — the
counter never stays fixed under a close event. -/
theorem close_event_effect (P : Nat) (s : GameState P) (X : Nat)
    (hX : X < P) (hlen : s.players.length = P) :
    ∃ s', processMessage P s (ConnectionMessage.Close X) = some s' ∧
      s'.players.getD X none = none ∧
      (∀ j, j ≠ X → s'.players.getD j none = s.players.getD j none) ∧
      s'.player_count = (s.player_count + 255) % 256 ∧
      (s.player_count ≠ 0 → s.player_count ≤ 255 →
        s'.player_count = s.player_count - 1) ∧
      (s.players.getD X none = none → s'.players = s.players) ∧
      s'.player_count ≠ s.player_count := by
  have hXlen : X < s.players.length := by rw [hlen]; exact hX
  refine ⟨{ s with players := (s.players.set X none), player_count := ((s.player_count + (U8MOD - 1)) % U8MOD) },
    ?_, ?_, ?_, ?_, ?_, ?_, ?_⟩
  · simp [processMessage, hX]
  · simp [List.getD_eq_getElem?_getD, List.getElem?_set_self hXlen]
  · intro j hj
    simp [List.getD_eq_getElem?_getD, List.getElem?_set_ne (Ne.symm hj)]
  · simp [U8MOD]
  · intro h0 h255
    show (s.player_count + (U8MOD - 1)) % U8MOD = s.player_count - 1
    simp only [U8MOD]
    omega
  · intro hempty
    apply List.ext_getElem?
    intro n
    by_cases hn : X = n
    · subst hn
      rw [List.getElem?_set_self hXlen, List.getElem?_eq_getElem hXlen]
      have : s.players.getD X none = s.players[X] := by
        rw [List.getD_eq_getElem?_getD, List.getElem?_eq_getElem hXlen]
        rfl
      rw [this] at hempty
      rw [hempty]
    · rw [List.getElem?_set_ne hn]
  · show (s.player_count + (U8MOD - 1)) % U8MOD ≠ s.player_count
    simp only [U8MOD]
    omega

/-- Witness for `close_event_effect` at the fresh match, id 3. -/
theorem close_event_effect_witness :
    ∃ s', processMessage 100 (initialGame 100 7) (ConnectionMessage.Close 3) = some s' ∧
      s'.players.getD 3 none = none ∧
      (∀ j, j ≠ 3 → s'.players.getD j none = (initialGame 100 7).players.getD j none) ∧
      s'.player_count = ((initialGame 100 7).player_count + 255) % 256 ∧
      ((initialGame 100 7).player_count ≠ 0 → (initialGame 100 7).player_count ≤ 255 →
        s'.player_count = (initialGame 100 7).player_count - 1) ∧
      ((initialGame 100 7).players.getD 3 none = none →
        s'.players = (initialGame 100 7).players) ∧
      s'.player_count ≠ (initialGame 100 7).player_count :=
  close_event_effect 100 (initialGame 100 7) 3 (by decide) (by decide)


/-- Reading a slot below the length is a plain `getElem`. -/
theorem getD_eq_of_lt (l : List (Option Player)) (i : Nat) (h : i < l.length) :
    l.getD i none = l[i] := by
  rw [List.getD_eq_getElem?_getD, List.getElem?_eq_getElem h]
  rfl

/-- Seating a player in a slot grows the occupied count by at most one. -/
theorem countP_set_some_le (l : List (Option Player)) (i : Nat) (p : Player)
    (h : i < l.length) :
    (l.set i (some p)).countP (fun o => o.isSome) ≤ l.countP (fun o => o.isSome) + 1 := by
  rw [List.countP_set _ _ _ _ h]
  split <;> simp

/-- Clearing an occupied slot shrinks the occupied count by exactly one. -/
theorem countP_set_none (l : List (Option Player)) (i : Nat)
    (h : i < l.length) (hocc : (l.getD i none).isSome = true) :
    (l.set i none).countP (fun o => o.isSome) + 1 = l.countP (fun o => o.isSome) := by
  rw [getD_eq_of_lt l i h] at hocc
  have hpos : 0 < l.countP (fun o => o.isSome) :=
    List.countP_pos_iff.mpr ⟨l[i], List.getElem_mem h, hocc⟩
  rw [List.countP_set _ _ _ _ h, hocc]
  simp
  omega

/-- A successful admission preserves the registry invariant (for any
capacity within the 8-bit counter range). -/
theorem inv_addPlayer (P : Nat) (hP : P ≤ 255) (s s' : GameState P) (cd : Int) (id : Nat)
    (hinv : GameInv P s) (h : addPlayer P s cd = some (s', id)) : GameInv P s' := by
  obtain ⟨hlen, hocc, hle⟩ := hinv
  simp only [addPlayer] at h
  by_cases hc : s.player_count < P
  · rw [if_pos hc] at h
    simp only [Option.some.injEq, Prod.mk.injEq] at h
    obtain ⟨hs, hid⟩ := h
    subst hs
    have hclen : s.player_count < s.players.length := by rw [hlen]; exact hc
    have hb := countP_set_some_le s.players s.player_count
      { position := (256, 256), id := s.player_count, clock_diff := cd } hclen
    have hmod : (s.player_count + 1) % U8MOD = s.player_count + 1 := by
      simp only [U8MOD]
      omega
    refine ⟨by simpa [List.length_set] using hlen, ?_, ?_⟩
    · simp only [occupiedCount] at hocc ⊢
      rw [hmod]
      omega
    · show (s.player_count + 1) % U8MOD ≤ P
      rw [hmod]
      omega
  · rw [if_neg hc] at h
    cases h

/-- Processing a close event for an occupied slot preserves the registry
invariant. -/
theorem inv_close (P : Nat) (hP : P ≤ 255) (s s' : GameState P) (id : Nat)
    (hinv : GameInv P s) (hoccp : (s.players.getD id none).isSome = true)
    (h : processMessage P s (ConnectionMessage.Close id) = some s') : GameInv P s' := by
  obtain ⟨hlen, hocc, hle⟩ := hinv
  simp only [processMessage] at h
  by_cases hc : id < P
  · rw [if_pos hc] at h
    have hs := Option.some.inj h
    subst hs
    have hclen : id < s.players.length := by rw [hlen]; exact hc
    have hset := countP_set_none s.players id hclen hoccp
    have hcount : (s.player_count + (U8MOD - 1)) % U8MOD = s.player_count - 1 := by
      simp only [occupiedCount] at hocc
      simp only [U8MOD]
      omega
    refine ⟨by simpa [List.length_set] using hlen, ?_, ?_⟩
    · simp only [occupiedCount] at hocc ⊢
      rw [hcount]
      omega
    · show (s.player_count + (U8MOD - 1)) % U8MOD ≤ P
      rw [hcount]
      omega
  · rw [if_neg hc] at h
    cases h

/-- The registry invariant is preserved along every guarded run. -/
theorem guardedRun_inv (P : Nat) (hP : P ≤ 255) (s t : GameState P) (ops : List GameOp)
    (h : GuardedRun P s ops t) : GameInv P s → GameInv P t := by
  induction h with
  | nil s => exact fun hinv => hinv
  | seat s cd s' id rest t hstep hrest ih =>
      exact fun hinv => ih (inv_addPlayer P hP s s' cd id hinv hstep)
  | close s id s' rest t hoccp hstep hrest ih =>
      exact fun hinv => ih (inv_close P hP s s' id hinv hoccp hstep)

/-- Claim C3, amended: along any sequence of admissions and close-event
processings in which every processed close event targets a currently
occupied slot, the population counter stays between 0 and `P` (the lower
bound is inherent in the `Nat` model of the `u8` counter) and dominates the
number of occupied slots.  Without the guard the claim fails: the
unconditional 8-bit decrement wraps, see
`close_on_empty_registry_wraps_counter`. -/
theorem guarded_population_bound (P seedv : Nat) (hP : P ≤ 255) (ops : List GameOp)
    (t : GameState P) (h : GuardedRun P (initialGame P seedv) ops t) :
    t.player_count ≤ P ∧ occupiedCount P t ≤ t.player_count := by
  have hinit : GameInv P (initialGame P seedv) := by
    refine ⟨by simp [initialGame], ?_, by simp [initialGame]⟩
    simp [occupiedCount, initialGame, List.countP_replicate]
  have hfin := guardedRun_inv P hP (initialGame P seedv) t ops h hinit
  exact ⟨hfin.2.2, hfin.2.1⟩

/-- Witness for `guarded_population_bound`: seat one player into a fresh
match and process its close event. -/
theorem guarded_population_bound_witness :
    oneAdmittedClosed.player_count ≤ 100 ∧
    occupiedCount 100 oneAdmittedClosed ≤ oneAdmittedClosed.player_count :=
  guarded_population_bound 100 0 (by decide) [GameOp.seat 0, GameOp.close 0]
    oneAdmittedClosed
    (GuardedRun.seat (initialGame 100 0) 0 oneAdmitted 0 [GameOp.close 0]
      oneAdmittedClosed (by decide)
      (GuardedRun.close oneAdmitted 0 oneAdmittedClosed [] oneAdmittedClosed
        (by decide) (by decide) (GuardedRun.nil oneAdmittedClosed)))

/-- Claim C3, counterexample: the bound `playerCount ≤ P` does NOT hold for
every sequence of admissions and close-event processings.  From a fresh
match (population 0), processing a single close event for id 5 wraps the
8-bit counter to 255, far above the capacity `PLAYER_COUNT = 100`. -/
theorem close_on_empty_registry_wraps_counter :
    (processMessage 100 (initialGame 100 0) (ConnectionMessage.Close 5)).map
      (fun s => s.player_count) = some 255 ∧
    PLAYER_COUNT < 255 :=
  ⟨by decide, by decide⟩


/-- Running only admissions from a state with a full-length slot table
allocates consecutive ids starting at the current counter value, increments
the counter once per admission, never disturbs slots below the starting
counter value, and stores each admitted player — carrying its own id — in
the slot indexed by that id. -/
theorem runOpsIds_admits (P : Nat) (hP : P ≤ 255) (cds : List Int) :
    ∀ (s final : GameState P) (ids : List Nat),
      s.players.length = P →
      runOpsIds P s (cds.map GameOp.seat) = some (final, ids) →
      ids = List.range' s.player_count cds.length ∧
      final.player_count = s.player_count + cds.length ∧
      final.players.length = P ∧
      (∀ j, j < s.player_count → final.players.getD j none = s.players.getD j none) ∧
      (∀ i, i ∈ ids → (final.players.getD i none).map Player.id = some i ∧ i < P) := by
  induction cds with
  | nil =>
    intro s final ids hlen h
    simp only [List.map_nil, runOpsIds, Option.some.injEq, Prod.mk.injEq] at h
    obtain ⟨hf, hi⟩ := h
    subst hf
    subst hi
    refine ⟨rfl, by simp, hlen, fun j _ => rfl, fun i hi => absurd hi (by simp)⟩
  | cons cd cds ih =>
    intro s final ids hlen h
    simp only [List.map_cons, runOpsIds] at h
    cases hadd : addPlayer P s cd with
    | none => simp [hadd] at h
    | some r =>
      simp only [hadd] at h
      obtain ⟨s1, id1⟩ := r
      cases hrun : runOpsIds P s1 (cds.map GameOp.seat) with
      | none => simp [hrun] at h
      | some r2 =>
        rw [hrun] at h
        obtain ⟨f2, ids2⟩ := r2
        simp only [Option.map_some', Option.some.injEq, Prod.mk.injEq] at h
        obtain ⟨hf, hi⟩ := h
        subst hf
        subst hi
        simp only [addPlayer] at hadd
        by_cases hc : s.player_count < P
        · rw [if_pos hc] at hadd
          simp only [Option.some.injEq, Prod.mk.injEq] at hadd
          obtain ⟨hs1, hid1⟩ := hadd
          subst hs1
          subst hid1
          have hmod : (s.player_count + 1) % U8MOD = s.player_count + 1 := by
            simp only [U8MOD]
            omega
          have hclen : s.player_count < s.players.length := by rw [hlen]; exact hc
          have hlen1 : (s.players.set s.player_count
              (some { position := (256, 256), id := s.player_count,
                      clock_diff := cd })).length = P := by
            rw [List.length_set]
            exact hlen
          obtain ⟨hids2, hcount2, hlen2, hpres2, hmem2⟩ :=
            ih _ f2 ids2 hlen1 hrun
          simp only [hmod] at hids2 hcount2 hpres2
          refine ⟨?_, ?_, hlen2, ?_, ?_⟩
          · rw [hids2]
            simp only [List.length_cons]
            rw [List.range'_succ]
          · rw [hcount2]
            simp only [List.length_cons]
            omega
          · intro j hj
            rw [hpres2 j (by omega)]
            rw [List.getD_eq_getElem?_getD, List.getD_eq_getElem?_getD,
              List.getElem?_set_ne (show s.player_count ≠ j by omega)]
          · intro i hi
            rcases List.mem_cons.mp hi with hi | hi
            · subst hi
              rw [hpres2 s.player_count (by omega)]
              rw [List.getD_eq_getElem?_getD, List.getElem?_set_self hclen]
              exact ⟨rfl, hc⟩
            · exact hmem2 i hi
        · rw [if_neg hc] at hadd
          cases hadd

/-- Claim C4, amended: the player-id allocator IS the population counter,
so the claim holds exactly for admission sequences uninterrupted by close
processing — which is the order the program actually realizes, since every
`process_message` call happens in the match loop, after the admission phase
has ended.  For any run of admissions from a fresh match the allocated ids
are 0, 1, 2, … in order (strictly increasing, no id allocated twice) and
each admitted player sits in the slot indexed by its id.  Once close events
interleave, the counter decrements and previously allocated ids are handed
out again: see `player_id_reused_after_close`. -/
theorem admissions_allocate_fresh_ids (P : Nat) (hP : P ≤ 255) (seedv : Nat)
    (cds : List Int) (final : GameState P) (ids : List Nat)
    (h : runOpsIds P (initialGame P seedv) (cds.map GameOp.seat) = some (final, ids)) :
    ids = List.range cds.length ∧
    List.Pairwise (fun a b => a < b) ids ∧
    ids.Nodup ∧
    (∀ i, i ∈ ids → (final.players.getD i none).map Player.id = some i) := by
  have hlen : (initialGame P seedv).players.length = P := by simp [initialGame]
  obtain ⟨hids, hcount, hflen, hpres, hmem⟩ :=
    runOpsIds_admits P hP cds (initialGame P seedv) final ids hlen h
  have hr : ids = List.range cds.length := by
    rw [hids, List.range_eq_range']
    rfl
  refine ⟨hr, ?_, ?_, fun i hi => (hmem i hi).1⟩
  · rw [hr, List.range_eq_range']
    exact List.pairwise_lt_range' 0 cds.length
  · rw [hr]
    exact List.nodup_range cds.length

/-- Witness for `admissions_allocate_fresh_ids`: two admissions into a
fresh match allocate ids 0 and 1 and seat the players at those slots. -/
theorem admissions_allocate_fresh_ids_witness :
    ([0, 1] : List Nat) = List.range 2 ∧
    List.Pairwise (fun a b => a < b) ([0, 1] : List Nat) ∧
    ([0, 1] : List Nat).Nodup ∧
    (∀ i, i ∈ ([0, 1] : List Nat) →
      (twoAdmitted.players.getD i none).map Player.id = some i) :=
  admissions_allocate_fresh_ids 100 (by decide) 0 [0, 5] twoAdmitted [0, 1] (by decide)

/-- Claim C4, counterexample: once a close event is processed between
admissions, an id IS allocated twice.  Admit two players (ids 0 and 1),
process the close of player 1 (the counter drops back to 1), then seat a
third connection: the allocator hands out id 1 again, so the allocation
trace is [0, 1, 1] — not monotonically increasing without reuse. -/
theorem player_id_reused_after_close :
    (runOpsIds 100 (initialGame 100 0)
        [GameOp.seat 0, GameOp.seat 0, GameOp.close 1, GameOp.seat 0]).map Prod.snd =
      some [0, 1, 1] ∧
    ¬ ([0, 1, 1] : List Nat).Nodup :=
  ⟨by decide, by decide⟩


/-- Claim C8 (confirmed): when the Start Broadcaster runs, exactly the
currently seated players receive a start message (first conjunct, an iff:
one message per occupied slot and no one else); the message carries the
entity range start `id * ENTITY_RANGE`, the player's spawn position, the
visibility range `ENTITY_RANGE = 500`, and the match seed (second
conjunct); and any two messages addressed to distinct player ids have
disjoint entity ranges `[id*500, id*500+500)` (third conjunct). -/
theorem start_broadcast_correct (P : Nat) (s : GameState P) :
    (∀ i m, (i, m) ∈ startGameMsgs P s ↔
      ∃ p : Player, some p ∈ s.players ∧ i = p.id ∧
        m = create_player_start_msg p s.seed) ∧
    (∀ p : Player,
      (create_player_start_msg p s.seed).entity_id = p.id * ENTITY_RANGE ∧
      (create_player_start_msg p s.seed).range = ENTITY_RANGE ∧
      (create_player_start_msg p s.seed).position = p.position ∧
      (create_player_start_msg p s.seed).seed = s.seed) ∧
    (∀ i m j m', (i, m) ∈ startGameMsgs P s → (j, m') ∈ startGameMsgs P s →
      i ≠ j → ∀ e, m.entity_id ≤ e → e < m.entity_id + m.range →
        ¬ (m'.entity_id ≤ e ∧ e < m'.entity_id + m'.range)) := by
  have hmem : ∀ i m, (i, m) ∈ startGameMsgs P s ↔
      ∃ p : Player, some p ∈ s.players ∧ i = p.id ∧
        m = create_player_start_msg p s.seed := by
    intro i m
    unfold startGameMsgs
    rw [List.mem_filterMap]
    constructor
    · rintro ⟨slot, hslot, hf⟩
      cases slot with
      | none => simp at hf
      | some p =>
        simp only [Option.map_some', Option.some.injEq, Prod.mk.injEq] at hf
        exact ⟨p, hslot, hf.1.symm, hf.2.symm⟩
    · rintro ⟨p, hp, rfl, rfl⟩
      exact ⟨some p, hp, rfl⟩
  refine ⟨hmem, fun p => ⟨rfl, rfl, rfl, rfl⟩, ?_⟩
  intro i m j m' him hjm hij e he1 he2
  obtain ⟨p, hp, hpi, hpm⟩ := (hmem i m).mp him
  obtain ⟨q, hq, hqj, hqm⟩ := (hmem j m').mp hjm
  subst hpi
  subst hqj
  subst hpm
  subst hqm
  rintro ⟨hf1, hf2⟩
  simp only [create_player_start_msg, ENTITY_RANGE] at he1 he2 hf1 hf2
  have hne : p.id ≠ q.id := hij
  omega

/-- Witness for `start_broadcast_correct`: in `broadcastDemoState` player 0
is notified, and player 1's entity range does not contain the point 250
(which lies in player 0's range). -/
theorem start_broadcast_correct_witness :
    ((0, { entity_id := 0, position := (256, 256), range := 500, seed := 9 })
        ∈ startGameMsgs 3 broadcastDemoState) ∧
    ¬ (((500 : Nat) ≤ 250) ∧ ((250 : Nat) < 500 + 500)) :=
  ⟨((start_broadcast_correct 3 broadcastDemoState).1 0
      { entity_id := 0, position := (256, 256), range := 500, seed := 9 }).mpr
      ⟨{ position := (256, 256), id := 0, clock_diff := 0 }, by decide, rfl, rfl⟩,
   (start_broadcast_correct 3 broadcastDemoState).2.2 0
      { entity_id := 0, position := (256, 256), range := 500, seed := 9 } 1
      { entity_id := 500, position := (300, 300), range := 500, seed := 9 }
      (by decide) (by decide) (by decide) 250 (by decide) (by decide)⟩


/-- Characterization of the fueled match loop: it reports `finished s' k`
exactly when the end-of-tick population check first reads zero at tick `k`
(counting `n` iterations from the starting tick). -/
theorem gameRunLoop_finished_iff (P : Nat) (msgs : Nat → List ConnectionMessage) :
    ∀ (fuel : Nat) (s : GameState P) (tick k : Nat) (s' : GameState P),
      gameRunLoop P msgs fuel s tick = RunResult.finished s' k ↔
      ∃ n, k = tick + n ∧ n < fuel ∧
        loopTrace P msgs s tick (n + 1) = some s' ∧ s'.player_count = 0 ∧
        ∀ m, m < n → ∀ sm, loopTrace P msgs s tick (m + 1) = some sm →
          sm.player_count ≠ 0 := by
  intro fuel
  induction fuel with
  | zero =>
    intro s tick k s'
    constructor
    · intro h
      simp [gameRunLoop] at h
    · rintro ⟨n, _, hn, _⟩
      exact absurd hn (by omega)
  | succ f ih =>
    intro s tick k s'
    rw [gameRunLoop_succ]
    cases hit : gameIteration P s (msgs tick) with
    | none =>
      constructor
      · intro h
        simp at h
      · rintro ⟨n, rfl, hn, htr, hz, hg⟩
        rw [loopTrace_succ, hit] at htr
        simp at htr
    | some s1 =>
      show (if s1.player_count = 0 then RunResult.finished s1 tick
            else gameRunLoop P msgs f s1 (tick + 1)) = RunResult.finished s' k ↔ _
      by_cases h0 : s1.player_count = 0
      · rw [if_pos h0]
        constructor
        · intro h
          injection h with h1 h2
          subst h1
          subst h2
          refine ⟨0, by omega, by omega, ?_, h0, ?_⟩
          · rw [loopTrace_succ, hit]
            rfl
          · intro m hm sm htr
            exact absurd hm (by omega)
        · rintro ⟨n, rfl, hn, htr, hz, hg⟩
          cases n with
          | zero =>
            rw [loopTrace_succ, hit] at htr
            simp [loopTrace] at htr
            subst htr
            simp
          | succ n' =>
            exfalso
            have h1 : loopTrace P msgs s tick 1 = some s1 := by
              rw [loopTrace_succ, hit]
              rfl
            exact hg 0 (by omega) s1 h1 h0
      · rw [if_neg h0]
        rw [ih s1 (tick + 1) k s']
        constructor
        · rintro ⟨n', rfl, hn', htr', hz', hg'⟩
          refine ⟨n' + 1, by omega, by omega, ?_, hz', ?_⟩
          · rw [loopTrace_succ, hit]
            exact htr'
          · intro m hm sm htr
            cases m with
            | zero =>
              rw [loopTrace_succ, hit] at htr
              simp [loopTrace] at htr
              rw [← htr]
              exact h0
            | succ m' =>
              rw [loopTrace_succ, hit] at htr
              exact hg' m' (by omega) sm htr
        · rintro ⟨n, rfl, hn, htr, hz, hg⟩
          cases n with
          | zero =>
            exfalso
            rw [loopTrace_succ, hit] at htr
            simp [loopTrace] at htr
            apply h0
            rw [htr]
            exact hz
          | succ n' =>
            refine ⟨n', by omega, by omega, ?_, hz, ?_⟩
            · rw [loopTrace_succ, hit] at htr
              exact htr
            · intro m hm sm htrm
              apply hg (m + 1) (by omega) sm
              rw [loopTrace_succ, hit]
              exact htrm

/-- Claim C6 (confirmed): the match loop terminates if and only if the
population counter reads zero at the end-of-tick check.  `gameRunLoop`
(observed for any number of iterations) reports `finished s' k` exactly
when the state after processing tick `k`'s events has population zero and
every earlier end-of-tick check read a nonzero population — so the loop
exits at the FIRST zero reading, schedules no further ticks afterwards,
and while the population stays positive it never exits (the only other
outcomes are `panicked` on an out-of-bounds close and `running`, i.e.
still looping when fuel runs out; there is no timeout exit). -/
theorem loop_exits_iff_population_zero (P : Nat) (msgs : Nat → List ConnectionMessage)
    (fuel : Nat) (s0 s' : GameState P) (k : Nat) :
    gameRunLoop P msgs fuel s0 0 = RunResult.finished s' k ↔
      (k < fuel ∧ loopTrace P msgs s0 0 (k + 1) = some s' ∧ s'.player_count = 0 ∧
       ∀ j, j < k → ∀ sj, loopTrace P msgs s0 0 (j + 1) = some sj →
         sj.player_count ≠ 0) := by
  rw [gameRunLoop_finished_iff P msgs fuel s0 0 k s']
  constructor
  · rintro ⟨n, rfl, hn, htr, hz, hg⟩
    simp only [Nat.zero_add]
    exact ⟨hn, htr, hz, hg⟩
  · rintro ⟨hk, htr, hz, hg⟩
    exact ⟨k, by omega, hk, htr, hz, hg⟩

/-- Witness for `loop_exits_iff_population_zero`: a single seated player
closed at tick 2 makes the loop exit at tick 2 after two nonzero checks. -/
theorem loop_exits_iff_population_zero_witness :
    2 < 10 ∧
    loopTrace 2 closeAtTickTwo oneSeatedTwoSlots 0 (2 + 1) = some emptiedTwoSlots ∧
    emptiedTwoSlots.player_count = 0 ∧
    (∀ j, j < 2 → ∀ sj,
      loopTrace 2 closeAtTickTwo oneSeatedTwoSlots 0 (j + 1) = some sj →
        sj.player_count ≠ 0) :=
  (loop_exits_iff_population_zero 2 closeAtTickTwo 10 oneSeatedTwoSlots
    emptiedTwoSlots 2).mp (by decide)

end VimRoyale
